import Mathlib

/-!
Verification of the core of the `jerboa` scripting language: a Pratt
expression parser (`src/parser.rs`) and a tree-walking evaluator
(`src/evaluator.rs`) over a chain of lexical scopes.

The Rust sources under `src/` are embedded shallowly:

* `TokenKind`, the AST (`Statement`/`Expression`) and the `Environment`
  are declared in `token.rs`, `ast.rs` and `environment.rs`, which are not
  part of the sources at hand; they are modelled from the spec (§3, §4.2)
  and from their uses in `parser.rs`, `evaluator.rs` and `object.rs`.
* `Rc<RefCell<Environment>>` handles become indices (`Nat`) into a store
  of frames carried in the evaluator state; mutation through a handle
  becomes an update of the store at that index, which models the shared
  ownership (a closure and the call stack may reference the same frame).
* Rust `i32` values are embedded as `Int`; `/` and `%` on nonzero
  divisors are Rust's truncating division/remainder (`Int.tdiv` /
  `Int.tmod`), and their unconditional overflow panic at
  `i32::MIN / -1` is modelled by the `panicked` outcome.  The `as u8`
  casts in the arity error are kept as `% 256`.
* `&mut self` methods returning `Result<T, EvalError>` become functions
  `EvalState → EvalResult T × EvalState`: the state is threaded through
  error returns exactly as Rust's `?` leaves `self` behind.
* General recursion through closures is bounded by an explicit fuel
  argument; `EvalResult.timeout` marks fuel exhaustion and never occurs
  for sufficiently large fuel on a given program.
-/

/-- Modelled from the spec (§3) and from the uses in `parser.rs`,
`evaluator.rs`: the token kinds of `token.rs`, which is not under `src/`. -/
inductive TokenKind where
  | Plus | Minus | Asterisk | Slash | Percentage
  | Equal | NotEqual | LessThan | GreaterThan | LessThanEqual | GreaterThanEqual
  | Bang
  | Assign | Semicolon | Eof
  | IdentifierTok | IntegerTok | TrueTok | FalseTok
  | LetTok | ReturnTok
deriving DecidableEq, Repr

/-- Modelled from the spec: rendering of operator tokens (the `Display`
impl lives in the missing `token.rs`); operators display as their symbol. -/
def TokenKind.display : TokenKind → String
  | .Plus => "+"
  | .Minus => "-"
  | .Asterisk => "*"
  | .Slash => "/"
  | .Percentage => "%"
  | .Equal => "=="
  | .NotEqual => "!="
  | .LessThan => "<"
  | .GreaterThan => ">"
  | .LessThanEqual => "<="
  | .GreaterThanEqual => ">="
  | .Bang => "!"
  | .Assign => "="
  | .Semicolon => ";"
  | .Eof => ""
  | .IdentifierTok => "identifier"
  | .IntegerTok => "integer"
  | .TrueTok => "true"
  | .FalseTok => "false"
  | .LetTok => "let"
  | .ReturnTok => "return"

mutual
/-- Modelled from the spec (§3, "AST — Statement") and the uses in
`evaluator.rs`/`parser.rs`: `ast.rs` is not under `src/`.  The `kind`
field of `VarStatement` is dropped: it is always the `let` token and the
evaluator ignores it (`kind: _`). -/
inductive Statement where
  | VarStatement : String → Expression → Statement
  | ReturnStatement : Expression → Statement
  | ExpressionStatement : Expression → Statement
  | BlockStatement : List Statement → Statement

/-- Modelled from the spec (§3, "AST — Expression") and the uses in
`evaluator.rs`/`parser.rs`. -/
inductive Expression where
  | IntegerLiteral : Int → Expression
  | BooleanLiteral : Bool → Expression
  | Identifier : String → Expression
  | BinaryExpression : Expression → TokenKind → Expression → Expression
  | UnaryExpression : TokenKind → Expression → Expression
  | GroupedExpression : Expression → Expression
  | CallExpression : String → List Expression → Expression
  | IfExpression : Expression → Statement → Option Statement → Expression
  | FunctionExpression : List String → Statement → Expression
end

/-- `object.rs`: `Closure { parameters, body, env }`.  The
`Rc<RefCell<Environment>>` handle is an index into the store of frames. -/
structure Closure where
  parameters : List String
  body : Statement
  env : Nat

/-- `object.rs`: `BuiltinFunction`. -/
inductive BuiltinFunction where
  | Len | Push
deriving DecidableEq, Repr

/-- `object.rs`: the runtime `Object` tagged union. -/
inductive Object where
  | IntegerValue : Int → Object
  | BooleanValue : Bool → Object
  | StringValue : String → Object
  | ReturnValue : Object → Object
  | FunctionValue : Closure → Object
  | BuiltinValue : BuiltinFunction → Object
  | UnitValue

/-- `object.rs`: `EvalError` (the parser-error payload of `ParsingError`
is kept abstract as the rendered message, as the claims never inspect it). -/
inductive EvalError where
  | IdentifierNotFound : String → EvalError
  | TypeMismatch : String → EvalError
  | ModuloByZero
  | DivisionByZero
  | FunctionNotFound : String → EvalError
  | FunctionCallWrongArity : Nat → Nat → EvalError
  | ReturnOutsideExpression
  | UnsupportedOperator : TokenKind → EvalError
  | ParsingError : String → EvalError
  | Unknown
deriving DecidableEq, Repr

mutual
/-- Modelled from the spec: the `Display` impls for the AST live in the
missing `ast.rs`; a minimal renderer, used only inside the
`TypeMismatch` message for closure operands. -/
def Statement.display : Statement → String
  | .VarStatement n v => "let " ++ n ++ " = " ++ v.display ++ ";"
  | .ReturnStatement e => "return " ++ e.display ++ ";"
  | .ExpressionStatement e => e.display ++ ";"
  | .BlockStatement ss => "\x7b " ++ Statement.displayList ss ++ " \x7d"

def Statement.displayList : List Statement → String
  | [] => ""
  | [s] => s.display
  | s :: rest => s.display ++ " " ++ Statement.displayList rest

def Expression.display : Expression → String
  | .IntegerLiteral n => toString n
  | .BooleanLiteral b => toString b
  | .Identifier s => s
  | .BinaryExpression l op r =>
      l.display ++ " " ++ op.display ++ " " ++ r.display
  | .UnaryExpression op v => op.display ++ v.display
  | .GroupedExpression e => "(" ++ e.display ++ ")"
  | .CallExpression p args => p ++ "(" ++ Expression.displayList args ++ ")"
  | .IfExpression c t e =>
      "if " ++ c.display ++ " " ++ t.display ++
        (match e with
         | some alt => " else " ++ alt.display
         | none => "")
  | .FunctionExpression ps body =>
      "fn(" ++ String.intercalate ", " ps ++ ") " ++ body.display

def Expression.displayList : List Expression → String
  | [] => ""
  | [e] => e.display
  | e :: rest => e.display ++ ", " ++ Expression.displayList rest
end

/-- `object.rs`: `impl fmt::Display for Object` (note the source's `Len`
arm really prints `"let"`). -/
def Object.display : Object → String
  | .IntegerValue v => toString v
  | .BooleanValue v => toString v
  | .StringValue v => "\"" ++ v ++ "\""
  | .FunctionValue c =>
      "fn(" ++ String.intercalate ", " c.parameters ++ ") " ++ c.body.display
  | .ReturnValue v => "return " ++ v.display
  | .BuiltinValue .Len => "built-in function let"
  | .BuiltinValue .Push => "built-in function push"
  | .UnitValue => "()"

/-- Modelled from the spec (§4.2, §3 "Environment"): one frame of the
scope chain (`environment.rs` is not under `src/`): a mapping from names
to values plus an optional outer link.  The outer link is an index into
the evaluator's store of frames. -/
structure Frame where
  bindings : List (String × Object)
  outer : Option Nat

/-- `Environment::set`: insert/overwrite in this frame only. -/
def Frame.set (f : Frame) (name : String) (v : Object) : Frame :=
  { f with bindings := (name, v) :: f.bindings.filter (fun p => p.1 ≠ name) }

/-- Lookup inside a single frame. -/
def Frame.lookup (f : Frame) (name : String) : Option Object :=
  f.bindings.lookup name

/-- The evaluator's mutable state (`Evaluator { env, returned_value }`,
with the heap of `Rc<RefCell<Environment>>` frames made explicit as
`store`; `env` is the handle of the current frame). -/
structure EvalState where
  store : List Frame
  env : Nat
  returnedValue : Option Object

/-- `Environment::get`, modelled from the spec (§4.2): walk outward
through the chain until found; "identifier not found" when the chain is
exhausted.  `gas` bounds the walk (outer links always point to
earlier-created frames, so `store.length` gas suffices). -/
def envGet (store : List Frame) : Nat → Nat → String → Option Object
  | 0, _, _ => none
  | gas+1, idx, name =>
    match store.get? idx with
    | none => none
    | some f =>
      match f.lookup name with
      | some v => some v
      | none =>
        match f.outer with
        | some o => envGet store gas o name
        | none => none

/-- The result of one evaluator step: `Result<α, EvalError>` plus two
markers of the shallow embedding — `timeout` for fuel exhaustion, and
`panicked` for a Rust panic (process abort), produced only by the
unconditional `i32` division/remainder overflow of `/` and `%` at
`i32::MIN / -1`.  A panic aborts the run; nothing handles it. -/
inductive EvalResult (α : Type) where
  | ok : α → EvalResult α
  | err : EvalError → EvalResult α
  | timeout : EvalResult α
  | panicked : EvalResult α

/-- A `&mut self` method returning `Result<α, EvalError>`: the state is
threaded through error returns exactly as Rust leaves `self` behind when
`?` fires. -/
def M (α : Type) : Type := EvalState → EvalResult α × EvalState

instance : Monad M where
  pure a := fun s => (.ok a, s)
  bind x f := fun s =>
    match x s with
    | (.ok a, s') => f a s'
    | (.err e, s') => (.err e, s')
    | (.timeout, s') => (.timeout, s')
    | (.panicked, s') => (.panicked, s')

/-- Raise an `EvalError` (a Rust `return Err(e)`). -/
def throwE {α : Type} (e : EvalError) : M α := fun s => (.err e, s)

/-- Outcome of the pure binary-operator dispatch: a value, an
`EvalError`, or a Rust panic (the division/remainder overflow abort). -/
inductive OpResult where
  | ok : Object → OpResult
  | error : EvalError → OpResult
  | panicked : OpResult

/-- Lift the pure dispatch outcome into the state monad. -/
def liftResult : OpResult → M Object
  | .ok a => pure a
  | .error e => throwE e
  | .panicked => fun s => (.panicked, s)

/-- `self.env.borrow().get(&name)?` (spec §4.2 walk). -/
def getVar (name : String) : M Object := fun s =>
  match envGet s.store s.store.length s.env name with
  | some v => (.ok v, s)
  | none => (.err (.IdentifierNotFound name), s)

/-- `self.env.borrow_mut().set(name, obj)`: writes into the innermost
(current) frame only (spec §4.2). -/
def setVarM (name : String) (v : Object) : M Unit := fun s =>
  (.ok (),
   match s.store.get? s.env with
   | some f => { s with store := s.store.set s.env (f.set name v) }
   | none => s)

/-- `self.returned_value := r`. -/
def setReturned (r : Option Object) : M Unit := fun s =>
  (.ok (), { s with returnedValue := r })

/-- `create_enclosed_env`: a new empty frame whose outer link is the
current environment; returns its handle.  Does not switch frames. -/
def createEnclosedEnv : M Nat := fun s =>
  (.ok s.store.length, { s with store := s.store ++ [⟨[], some s.env⟩] })

/-- `eval_function_expression`: build the closure, capturing a fresh
frame enclosed in the *current* (definition-site) environment. -/
def evalFunctionExpression (parameters : List String) (body : Statement) :
    M Object := do
  let envIdx ← createEnclosedEnv
  pure (Object.FunctionValue ⟨parameters, body, envIdx⟩)

/-- `for (param, arg) in parameters.zip(arguments) { env.set(param, arg) }`
of `eval_call_expression`, acting on the current frame of `s`. -/
def bindParams : List String → List Object → EvalState → EvalState
  | p :: ps, a :: rest, s =>
      bindParams ps rest
        (match s.store.get? s.env with
         | some f => { s with store := s.store.set s.env (f.set p a) }
         | none => s)
  | _, _, s => s

/-- The pure operator dispatch of `eval_binary_expression` (the `match`
over both evaluated operands; `evaluator.rs` lines 129-168).  A nonzero
divisor gives Rust's truncating `/` and `%` (`Int.tdiv` / `Int.tmod`),
except that `i32::MIN / -1` and `i32::MIN % -1` panic — the quotient
2^31 is unrepresentable and Rust checks division overflow in every
build profile ("attempt to divide with overflow").  `+`, `-`, `*` and
unary `-` keep the unbounded-`Int` abstraction: their overflow behavior
is build-dependent (wrapping in release, panic in debug) and no claim
touches it. -/
def binaryOpEval (leftObj : Object) (operator : TokenKind) (rightObj : Object) :
    OpResult :=
  match leftObj, rightObj with
  | .IntegerValue lhs, .IntegerValue rhs =>
    match operator with
    | .Plus => .ok (.IntegerValue (lhs + rhs))
    | .Minus => .ok (.IntegerValue (lhs - rhs))
    | .Asterisk => .ok (.IntegerValue (lhs * rhs))
    | .Equal => .ok (.BooleanValue (decide (lhs = rhs)))
    | .NotEqual => .ok (.BooleanValue (decide (lhs ≠ rhs)))
    | .LessThan => .ok (.BooleanValue (decide (lhs < rhs)))
    | .GreaterThan => .ok (.BooleanValue (decide (lhs > rhs)))
    | .LessThanEqual => .ok (.BooleanValue (decide (lhs ≤ rhs)))
    | .GreaterThanEqual => .ok (.BooleanValue (decide (lhs ≥ rhs)))
    | .Percentage =>
        if rhs = 0 then .error .ModuloByZero
        else if lhs = -2147483648 ∧ rhs = -1 then .panicked
        else .ok (.IntegerValue (Int.tmod lhs rhs))
    | .Slash =>
        if rhs = 0 then .error .DivisionByZero
        else if lhs = -2147483648 ∧ rhs = -1 then .panicked
        else .ok (.IntegerValue (Int.tdiv lhs rhs))
    | _ => .error (.UnsupportedOperator operator)
  | .BooleanValue lhs, .BooleanValue rhs =>
    match operator with
    | .Equal => .ok (.BooleanValue (lhs == rhs))
    | .NotEqual => .ok (.BooleanValue (lhs != rhs))
    | _ => .error (.UnsupportedOperator operator)
  | lhs, rhs =>
    .error (.TypeMismatch
      ("Cannot perform operation '" ++ operator.display ++ "' between '" ++
        lhs.display ++ "' and '" ++ rhs.display ++ "'"))

mutual

/-- `eval_statement` (`evaluator.rs` lines 42-88).  Every function of the
mutual block consumes one unit of fuel on entry. -/
def evalStatement (fuel : Nat) (stmt : Statement) : M Object :=
  match fuel with
  | 0 => fun s => (.timeout, s)
  | fuel+1 =>
    match stmt with
    | .VarStatement name value => do
        let obj ← evalExpression fuel value
        setVarM name obj
        pure Object.UnitValue
    | .ReturnStatement e => do
        let obj ← evalExpression fuel e
        setReturned (some obj)
        pure (Object.ReturnValue obj)
    | .ExpressionStatement e => evalExpression fuel e
    | .BlockStatement stmts => fun s =>
        -- let inner_env = self.create_enclosed_env();
        -- let outer_env = std::mem::replace(&mut self.env, inner_env);
        let s1 : EvalState :=
          { s with store := s.store ++ [⟨[], some s.env⟩], env := s.store.length }
        match blockLoop fuel Object.UnitValue stmts s1 with
        | (.ok obj, s2) => (.ok obj, { s2 with env := s.env })
        | (.err e, s2) => (.err e, s2)
        | (.timeout, s2) => (.timeout, s2)
        | (.panicked, s2) => (.panicked, s2)

/-- The `for statement in statements` loop of the block case, carrying
the last evaluated object (initially the unit value). -/
def blockLoop (fuel : Nat) (obj : Object) (stmts : List Statement) : M Object :=
  match fuel with
  | 0 => fun s => (.timeout, s)
  | fuel+1 =>
    match stmts with
    | [] => pure obj
    | st :: rest => fun s =>
        match s.returnedValue with
        | some _ => (.ok obj, { s with returnedValue := none })
        | none =>
          match evalStatement fuel st s with
          | (.ok o, s') =>
            match o with
            | .ReturnValue v => (.ok (Object.ReturnValue v), s')
            | o => blockLoop fuel o rest s'
          | (.err e, s') => (.err e, s')
          | (.timeout, s') => (.timeout, s')
          | (.panicked, s') => (.panicked, s')

/-- `eval_expression` (`evaluator.rs` lines 90-118). -/
def evalExpression (fuel : Nat) (expr : Expression) : M Object :=
  match fuel with
  | 0 => fun s => (.timeout, s)
  | fuel+1 =>
    match expr with
    | .IntegerLiteral n => pure (Object.IntegerValue n)
    | .BooleanLiteral b => pure (Object.BooleanValue b)
    | .Identifier name => getVar name
    | .BinaryExpression l op r => evalBinaryExpression fuel l op r
    | .UnaryExpression op v => evalUnaryExpression fuel op v
    | .GroupedExpression e => evalExpression fuel e
    | .CallExpression path args => evalCallExpression fuel path args
    | .IfExpression c t a => evalIfExpression fuel c t a
    | .FunctionExpression ps body => evalFunctionExpression ps body

/-- `eval_binary_expression`: evaluate left then right, then dispatch. -/
def evalBinaryExpression (fuel : Nat) (left : Expression)
    (operator : TokenKind) (right : Expression) : M Object :=
  match fuel with
  | 0 => fun s => (.timeout, s)
  | fuel+1 => do
    let leftObj ← evalExpression fuel left
    let rightObj ← evalExpression fuel right
    liftResult (binaryOpEval leftObj operator rightObj)

/-- `eval_unary_expression` (`evaluator.rs` lines 173-194); the operand
is evaluated only under a known-unary operator, and `!` on an `i32` is
the bitwise complement `-lit - 1`. -/
def evalUnaryExpression (fuel : Nat) (operator : TokenKind)
    (value : Expression) : M Object :=
  match fuel with
  | 0 => fun s => (.timeout, s)
  | fuel+1 =>
    match operator with
    | .Bang => do
        let obj ← evalExpression fuel value
        match obj with
        | .IntegerValue lit => pure (Object.IntegerValue (-lit - 1))
        | .BooleanValue lit => pure (Object.BooleanValue (!lit))
        | _ => throwE (.UnsupportedOperator operator)
    | .Minus => do
        let obj ← evalExpression fuel value
        match obj with
        | .IntegerValue lit => pure (Object.IntegerValue (-lit))
        | _ => throwE (.UnsupportedOperator operator)
    | _ => throwE (.UnsupportedOperator operator)

/-- `eval_if_expression` (`evaluator.rs` lines 196-220). -/
def evalIfExpression (fuel : Nat) (condition : Expression)
    (consequence : Statement) (alternative : Option Statement) : M Object :=
  match fuel with
  | 0 => fun s => (.timeout, s)
  | fuel+1 => do
    let condObj ← evalExpression fuel condition
    match condObj with
    | .BooleanValue lit =>
        if lit then evalStatement fuel consequence
        else
          match alternative with
          | some alt => evalStatement fuel alt
          | none => pure Object.UnitValue
    | _ => throwE (.TypeMismatch "`if` condition must be a boolean")

/-- The `arguments.into_iter().map(|arg| self.eval_expression(arg))
.collect::<Result<Vec<_>, _>>()` of `eval_call_expression`: left to
right, stopping at the first error. -/
def evalArgs (fuel : Nat) (args : List Expression) : M (List Object) :=
  match fuel with
  | 0 => fun s => (.timeout, s)
  | fuel+1 =>
    match args with
    | [] => pure []
    | a :: rest => do
        let v ← evalExpression fuel a
        let vs ← evalArgs fuel rest
        pure (v :: vs)

/-- `eval_call_expression` (`evaluator.rs` lines 236-286). -/
def evalCallExpression (fuel : Nat) (path : String)
    (arguments : List Expression) : M Object :=
  match fuel with
  | 0 => fun s => (.timeout, s)
  | fuel+1 => fun s =>
    match getVar path s with
    | (.ok function, s0) =>
      match function with
      | .FunctionValue ⟨parameters, body, envIdx⟩ =>
        if parameters.length ≠ arguments.length then
          (.err (.FunctionCallWrongArity (parameters.length % 256)
                   (arguments.length % 256)), s0)
        else
          -- evaluate arguments in the current scope
          match evalArgs fuel arguments s0 with
          | (.ok argVals, s1) =>
            -- switch to the closure environment, add the bindings there
            match evalStatement fuel body
                    (bindParams parameters argVals { s1 with env := envIdx }) with
            | (.ok bodyObj, s2) => (.ok bodyObj, { s2 with env := s1.env })
            | r => r
          | (.err e, s1) => (.err e, s1)
          | (.timeout, s1) => (.timeout, s1)
          | (.panicked, s1) => (.panicked, s1)
      | _ =>
        (.err (.FunctionNotFound "Check if this identifier is a declared function"), s0)
    | (.err e, s0) => (.err e, s0)
    | (.timeout, s0) => (.timeout, s0)
    | (.panicked, s0) => (.panicked, s0)

end

/-- The statement loop of `eval_program` (`evaluator.rs` lines 30-40):
evaluate each top-level statement in order, collect one object per
statement, abort at the first error.  (The parsing step that precedes it
belongs to the parser.) -/
def evalProgramStmts (fuel : Nat) : List Statement → M (List Object)
  | [] => pure []
  | st :: rest => do
      let obj ← evalStatement fuel st
      let objs ← evalProgramStmts fuel rest
      pure (obj :: objs)

/-- `Evaluator::new`: a single default (global) frame, current, no
pending return. -/
def initState : EvalState :=
  { store := [⟨[], none⟩], env := 0, returnedValue := none }

/-- Evaluate a whole program (as its parsed statement list) from the
initial state. -/
def runProgram (fuel : Nat) (prog : List Statement) :
    EvalResult (List Object) × EvalState :=
  evalProgramStmts fuel prog initState

/-- The tokens consumed by `parse_expression`.  The scanner is external
(spec §1): a token is a kind plus its lexeme; integer lexemes arrive
here already converted (the `parse::<i32>()` step and its failure path
are not the subject of any claim), identifiers keep their text. -/
inductive Token where
  | integer : Int → Token
  | ident : String → Token
  | tru : Token
  | fls : Token
  | opTok : TokenKind → Token
  | eof : Token

/-- Modelled from the spec (§4.1, §7): `ParserError` of the missing
`ast.rs`, as used by `parser.rs` (unexpected token at a decision point;
syntax error with a message; malformed integer literal). -/
inductive ParserError where
  | UnexpectedToken : Token → ParserError
  | SyntaxError : String → ParserError
  | IntegerParseFailure : ParserError

/-- The `kind` field of a token. -/
def Token.kindOf : Token → TokenKind
  | .integer _ => .IntegerTok
  | .ident _ => .IdentifierTok
  | .tru => .TrueTok
  | .fls => .FalseTok
  | .opTok k => k
  | .eof => .Eof

/-- `parser.rs`: `Precedence`, the binding power of a token
(`InfixP left right` / `PrefixP p`; the Rust constructor names collide
with Lean keywords). -/
inductive Precedence where
  | InfixP : Nat → Nat → Precedence
  | PrefixP : Nat → Precedence

/-- `parser.rs`: the two-token lookahead window (`cur`, `next`) plus the
not-yet-pulled remainder of the token stream. -/
structure ParserState where
  cur : Token
  next : Token
  rest : List Token

/-- `Parser::eat_token`: `cur ← next ← lexer.next_token()`. -/
def eatToken (p : ParserState) : ParserState :=
  { cur := p.next, next := p.rest.headD Token.eof, rest := p.rest.tail }

/-- `Parser::new`: both lookahead slots start at end-of-input, then two
tokens are consumed to fill `cur` and `next`. -/
def ParserState.init (toks : List Token) : ParserState :=
  eatToken (eatToken { cur := .eof, next := .eof, rest := toks })

/-- `parser.rs` lines 128-133: `prefix_precedence`. -/
def prefixPrecedence : TokenKind → Option Precedence
  | .Bang | .Minus => some (.PrefixP 5)
  | _ => none

/-- `parser.rs` lines 135-141: `infix_precedence` — the (left, right)
binding-power pairs. -/
def infixPrecedence : TokenKind → Option Precedence
  | .Plus | .Minus => some (.InfixP 1 2)
  | .Asterisk | .Slash => some (.InfixP 3 4)
  | _ => none

mutual

/-- `parse_expression` (`parser.rs` lines 146-206): Pratt parsing;
primary/prefix dispatch on the current token, then the infix loop.
`none` is the fuel-exhaustion marker of the embedding. -/
def parseExpression (fuel : Nat) (minPrec : Nat) (skipEating : Bool)
    (p0 : ParserState) :
    Option (Except ParserError (Expression × ParserState)) :=
  match fuel with
  | 0 => none
  | fuel+1 =>
    let p := if skipEating then p0 else eatToken p0
    match p.cur with
    | .integer n => parseInfixLoop fuel (.IntegerLiteral n) minPrec p
    | .ident s => parseInfixLoop fuel (.Identifier s) minPrec p
    | .tru => parseInfixLoop fuel (.BooleanLiteral true) minPrec p
    | .fls => parseInfixLoop fuel (.BooleanLiteral false) minPrec p
    | .opTok k =>
      match prefixPrecedence k with
      | some (.PrefixP prec) =>
        match parseExpression fuel prec false p with
        | some (.ok (value, p1)) =>
            parseInfixLoop fuel (.UnaryExpression k value) minPrec p1
        | some (.error e) => some (.error e)
        | none => none
      | _ => some (.error (.UnexpectedToken p.cur))
    | .eof => some (.error (.UnexpectedToken p.cur))

/-- The `while let Some(Precedence::Infix(..)) = infix_precedence(next)`
loop of `parse_expression` (`parser.rs` lines 178-203). -/
def parseInfixLoop (fuel : Nat) (expr : Expression) (minPrec : Nat)
    (p : ParserState) :
    Option (Except ParserError (Expression × ParserState)) :=
  match fuel with
  | 0 => none
  | fuel+1 =>
    match infixPrecedence p.next.kindOf with
    | some (.InfixP leftPrec rightPrec) =>
      if leftPrec < minPrec then some (.ok (expr, p))
      else
        let p1 := eatToken p
        let operator := p1.cur.kindOf
        match p1.cur.kindOf with
        | .Plus | .Minus | .Slash | .Asterisk =>
          match parseExpression fuel rightPrec false p1 with
          | some (.ok (right, p2)) =>
              parseInfixLoop fuel (.BinaryExpression expr operator right)
                minPrec p2
          | some (.error e) => some (.error e)
          | none => none
        | _ => some (.error (.UnexpectedToken p1.cur))
    | _ => some (.ok (expr, p))

end

/-- Parse a token sequence as one expression the way
`parse_expression_statement` starts it: minimum power 0, current token
already in place (`skip_eating = true`). -/
def runParseExpr (toks : List Token) : Option (Except ParserError Expression) :=
  match parseExpression (toks.length + 2) 0 true (ParserState.init toks) with
  | some (.ok (e, _)) => some (.ok e)
  | some (.error e) => some (.error e)
  | none => none

/-- An atomic sub-expression: a token the parser accepts as a primary
expression without consuming anything further. -/
inductive Atom where
  | intAtom : Int → Atom
  | identAtom : String → Atom
  | trueAtom : Atom
  | falseAtom : Atom

/-- The token of an atom. -/
def Atom.tok : Atom → Token
  | .intAtom n => .integer n
  | .identAtom s => .ident s
  | .trueAtom => .tru
  | .falseAtom => .fls

/-- The expression an atom parses to. -/
def Atom.expr : Atom → Expression
  | .intAtom n => .IntegerLiteral n
  | .identAtom s => .Identifier s
  | .trueAtom => .BooleanLiteral true
  | .falseAtom => .BooleanLiteral false

/-- `Object` classifier: is this a boolean value? -/
def Object.isBoolean : Object → Bool
  | .BooleanValue _ => true
  | _ => false

/-- `Object` classifier: is this an integer value? -/
def Object.isInteger : Object → Bool
  | .IntegerValue _ => true
  | _ => false

/-- `Object` classifier: is this the `ReturnValue` wrapper? -/
def Object.isReturnValue : Object → Bool
  | .ReturnValue _ => true
  | _ => false

/-- `EvalError` classifier: is this the `TypeMismatch` variant? -/
def EvalError.isTypeMismatch : EvalError → Bool
  | .TypeMismatch _ => true
  | _ => false

/-- The operators the integer/integer arm of `eval_binary_expression`
handles (every other operator falls to `UnsupportedOperator`). -/
def TokenKind.intBinarySupported : TokenKind → Bool
  | .Plus | .Minus | .Asterisk | .Equal | .NotEqual | .LessThan
  | .GreaterThan | .LessThanEqual | .GreaterThanEqual
  | .Percentage | .Slash => true
  | _ => false

/-- The `TypeMismatch` message of `eval_binary_expression` for a
mismatched operand pairing, naming both operand values and the operator. -/
def typeMismatchMsg (operator : TokenKind) (lhs rhs : Object) : String :=
  "Cannot perform operation '" ++ operator.display ++ "' between '" ++
    lhs.display ++ "' and '" ++ rhs.display ++ "'"

/-!
## The call semantics that claim C1 describes

Claim C1 (and spec §4.4) words the call step as: a function literal
captures the environment current at its definition site; every call then
creates a *fresh* frame chained to that captured environment, makes it
current, and binds the parameters there.  The source instead creates one
enclosed frame at function-literal evaluation time, stores it in the
closure, and every call switches to (and re-binds the parameters in)
that same stored frame.  The `...S` evaluator below follows the claim's
words — it differs from the source evaluator exactly in
`evalFunctionExpressionS` / `evalCallExpressionS` — and is used only to
exhibit a program on which the two semantics produce different results.
-/

/-- Function-literal evaluation as claim C1 words it: capture the
current (definition-site) environment itself. -/
def evalFunctionExpressionS (parameters : List String) (body : Statement) :
    M Object :=
  fun s => (.ok (.FunctionValue ⟨parameters, body, s.env⟩), s)

mutual

/-- `evalStatement` with the claim-C1 call semantics. -/
def evalStatementS (fuel : Nat) (stmt : Statement) : M Object :=
  match fuel with
  | 0 => fun s => (.timeout, s)
  | fuel+1 =>
    match stmt with
    | .VarStatement name value => do
        let obj ← evalExpressionS fuel value
        setVarM name obj
        pure Object.UnitValue
    | .ReturnStatement e => do
        let obj ← evalExpressionS fuel e
        setReturned (some obj)
        pure (Object.ReturnValue obj)
    | .ExpressionStatement e => evalExpressionS fuel e
    | .BlockStatement stmts => fun s =>
        let s1 : EvalState :=
          { s with store := s.store ++ [⟨[], some s.env⟩], env := s.store.length }
        match blockLoopS fuel Object.UnitValue stmts s1 with
        | (.ok obj, s2) => (.ok obj, { s2 with env := s.env })
        | (.err e, s2) => (.err e, s2)
        | (.timeout, s2) => (.timeout, s2)
        | (.panicked, s2) => (.panicked, s2)

/-- `blockLoop` with the claim-C1 call semantics. -/
def blockLoopS (fuel : Nat) (obj : Object) (stmts : List Statement) : M Object :=
  match fuel with
  | 0 => fun s => (.timeout, s)
  | fuel+1 =>
    match stmts with
    | [] => pure obj
    | st :: rest => fun s =>
        match s.returnedValue with
        | some _ => (.ok obj, { s with returnedValue := none })
        | none =>
          match evalStatementS fuel st s with
          | (.ok o, s') =>
            match o with
            | .ReturnValue v => (.ok (Object.ReturnValue v), s')
            | o => blockLoopS fuel o rest s'
          | (.err e, s') => (.err e, s')
          | (.timeout, s') => (.timeout, s')
          | (.panicked, s') => (.panicked, s')

/-- `evalExpression` with the claim-C1 call semantics. -/
def evalExpressionS (fuel : Nat) (expr : Expression) : M Object :=
  match fuel with
  | 0 => fun s => (.timeout, s)
  | fuel+1 =>
    match expr with
    | .IntegerLiteral n => pure (Object.IntegerValue n)
    | .BooleanLiteral b => pure (Object.BooleanValue b)
    | .Identifier name => getVar name
    | .BinaryExpression l op r => evalBinaryExpressionS fuel l op r
    | .UnaryExpression op v => evalUnaryExpressionS fuel op v
    | .GroupedExpression e => evalExpressionS fuel e
    | .CallExpression path args => evalCallExpressionS fuel path args
    | .IfExpression c t a => evalIfExpressionS fuel c t a
    | .FunctionExpression ps body => evalFunctionExpressionS ps body

/-- `evalBinaryExpression` with the claim-C1 call semantics. -/
def evalBinaryExpressionS (fuel : Nat) (left : Expression)
    (operator : TokenKind) (right : Expression) : M Object :=
  match fuel with
  | 0 => fun s => (.timeout, s)
  | fuel+1 => do
    let leftObj ← evalExpressionS fuel left
    let rightObj ← evalExpressionS fuel right
    liftResult (binaryOpEval leftObj operator rightObj)

/-- `evalUnaryExpression` with the claim-C1 call semantics. -/
def evalUnaryExpressionS (fuel : Nat) (operator : TokenKind)
    (value : Expression) : M Object :=
  match fuel with
  | 0 => fun s => (.timeout, s)
  | fuel+1 =>
    match operator with
    | .Bang => do
        let obj ← evalExpressionS fuel value
        match obj with
        | .IntegerValue lit => pure (Object.IntegerValue (-lit - 1))
        | .BooleanValue lit => pure (Object.BooleanValue (!lit))
        | _ => throwE (.UnsupportedOperator operator)
    | .Minus => do
        let obj ← evalExpressionS fuel value
        match obj with
        | .IntegerValue lit => pure (Object.IntegerValue (-lit))
        | _ => throwE (.UnsupportedOperator operator)
    | _ => throwE (.UnsupportedOperator operator)

/-- `evalIfExpression` with the claim-C1 call semantics. -/
def evalIfExpressionS (fuel : Nat) (condition : Expression)
    (consequence : Statement) (alternative : Option Statement) : M Object :=
  match fuel with
  | 0 => fun s => (.timeout, s)
  | fuel+1 => do
    let condObj ← evalExpressionS fuel condition
    match condObj with
    | .BooleanValue lit =>
        if lit then evalStatementS fuel consequence
        else
          match alternative with
          | some alt => evalStatementS fuel alt
          | none => pure Object.UnitValue
    | _ => throwE (.TypeMismatch "`if` condition must be a boolean")

/-- `evalArgs` with the claim-C1 call semantics. -/
def evalArgsS (fuel : Nat) (args : List Expression) : M (List Object) :=
  match fuel with
  | 0 => fun s => (.timeout, s)
  | fuel+1 =>
    match args with
    | [] => pure []
    | a :: rest => do
        let v ← evalExpressionS fuel a
        let vs ← evalArgsS fuel rest
        pure (v :: vs)

/-- Call evaluation as claim C1 words it: after the arguments are
evaluated in the caller's environment, a *fresh* frame chained to the
closure's captured environment becomes current and the parameters are
bound in it. -/
def evalCallExpressionS (fuel : Nat) (path : String)
    (arguments : List Expression) : M Object :=
  match fuel with
  | 0 => fun s => (.timeout, s)
  | fuel+1 => fun s =>
    match getVar path s with
    | (.ok function, s0) =>
      match function with
      | .FunctionValue ⟨parameters, body, envIdx⟩ =>
        if parameters.length ≠ arguments.length then
          (.err (.FunctionCallWrongArity (parameters.length % 256)
                   (arguments.length % 256)), s0)
        else
          match evalArgsS fuel arguments s0 with
          | (.ok argVals, s1) =>
            match evalStatementS fuel body
                    (bindParams parameters argVals
                      { s1 with store := s1.store ++ [⟨[], some envIdx⟩],
                                env := s1.store.length }) with
            | (.ok bodyObj, s2) => (.ok bodyObj, { s2 with env := s1.env })
            | r => r
          | (.err e, s1) => (.err e, s1)
          | (.timeout, s1) => (.timeout, s1)
          | (.panicked, s1) => (.panicked, s1)
      | _ =>
        (.err (.FunctionNotFound "Check if this identifier is a declared function"), s0)
    | (.err e, s0) => (.err e, s0)
    | (.timeout, s0) => (.timeout, s0)
    | (.panicked, s0) => (.panicked, s0)

end

/-- `evalProgramStmts` under the claim-C1 call semantics. -/
def evalProgramStmtsS (fuel : Nat) : List Statement → M (List Object)
  | [] => pure []
  | st :: rest => do
      let obj ← evalStatementS fuel st
      let objs ← evalProgramStmtsS fuel rest
      pure (obj :: objs)

/-- Run a program under the claim-C1 call semantics. -/
def runProgramS (fuel : Nat) (prog : List Statement) :
    EvalResult (List Object) × EvalState :=
  evalProgramStmtsS fuel prog initState

/-- Definitional unfolding of the monadic bind of `M`. -/
theorem M_bind_eq {α β : Type} (x : M α) (f : α → M β) (s : EvalState) :
    (x >>= f) s =
      match x s with
      | (.ok a, s') => f a s'
      | (.err e, s') => (.err e, s')
      | (.timeout, s') => (.timeout, s')
      | (.panicked, s') => (.panicked, s') := rfl

/-- Definitional unfolding of the monadic pure of `M`. -/
theorem M_pure_eq {α : Type} (a : α) (s : EvalState) :
    (pure a : M α) s = (.ok a, s) := rfl

/-- Evaluating no statements yields no objects. -/
theorem evalProgramStmts_nil (fuel : Nat) (s : EvalState) :
    evalProgramStmts fuel [] s = (.ok [], s) := rfl

/-- One successful step of the `eval_program` loop followed by the rest. -/
theorem evalProgramStmts_cons {fuel : Nat} {st : Statement}
    {rest : List Statement} {s : EvalState} {o : Object} {s' : EvalState}
    {os : List Object} {s'' : EvalState}
    (h1 : evalStatement fuel st s = (.ok o, s'))
    (h2 : evalProgramStmts fuel rest s' = (.ok os, s'')) :
    evalProgramStmts fuel (st :: rest) s = (.ok (o :: os), s'') := by
  show (evalStatement fuel st >>= fun obj =>
    evalProgramStmts fuel rest >>= fun objs => pure (obj :: objs)) s = _
  rw [M_bind_eq, h1]
  show (evalProgramStmts fuel rest >>= fun objs => pure (o :: objs)) s' = _
  rw [M_bind_eq, h2]
  exact M_pure_eq _ _

/-- `evalProgramStmts_cons` for the claim-C1 variant evaluator. -/
theorem evalProgramStmtsS_cons {fuel : Nat} {st : Statement}
    {rest : List Statement} {s : EvalState} {o : Object} {s' : EvalState}
    {os : List Object} {s'' : EvalState}
    (h1 : evalStatementS fuel st s = (.ok o, s'))
    (h2 : evalProgramStmtsS fuel rest s' = (.ok os, s'')) :
    evalProgramStmtsS fuel (st :: rest) s = (.ok (o :: os), s'') := by
  show (evalStatementS fuel st >>= fun obj =>
    evalProgramStmtsS fuel rest >>= fun objs => pure (obj :: objs)) s = _
  rw [M_bind_eq, h1]
  show (evalProgramStmtsS fuel rest >>= fun objs => pure (o :: objs)) s' = _
  rw [M_bind_eq, h2]
  exact M_pure_eq _ _

/-- `m` leaves the current-environment handle unchanged whenever it
returns successfully (errors and fuel exhaustion are unconstrained). -/
def PreservesEnv {α : Type} (m : M α) : Prop :=
  ∀ s a s', m s = (.ok a, s') → s'.env = s.env

theorem pe_bind {α β : Type} {x : M α} {f : α → M β}
    (hx : PreservesEnv x) (hf : ∀ a, PreservesEnv (f a)) :
    PreservesEnv (x >>= f) := by
  intro s b s'' h
  rw [M_bind_eq] at h
  rcases hx' : x s with ⟨r, s1⟩
  rw [hx'] at h
  cases r with
  | ok a =>
      exact (hf a s1 b s'' h).trans (hx s a s1 hx')
  | err e => simp at h
  | timeout => simp at h
  | panicked => simp at h

theorem pe_pure {α : Type} (a : α) :
    PreservesEnv (pure a : M α) := by
  intro s b s' h
  rw [M_pure_eq] at h
  cases h
  rfl

theorem pe_throw {α : Type} (e : EvalError) :
    PreservesEnv (throwE e : M α) := by
  intro s b s' h
  simp [throwE] at h

theorem pe_liftResult (r : OpResult) : PreservesEnv (liftResult r) := by
  cases r with
  | ok a => exact pe_pure a
  | error e => exact pe_throw e
  | panicked => intro s a s' h; simp [liftResult] at h

theorem pe_getVar (name : String) : PreservesEnv (getVar name) := by
  intro s a s' h
  unfold getVar at h
  split at h
  · cases h; rfl
  · simp at h

theorem getVar_state (name : String) (s : EvalState) :
    (getVar name s).2 = s := by
  unfold getVar
  split <;> rfl

theorem pe_setVarM (name : String) (v : Object) :
    PreservesEnv (setVarM name v) := by
  intro s a s' h
  unfold setVarM at h
  cases h
  split <;> rfl

theorem pe_setReturned (r : Option Object) : PreservesEnv (setReturned r) := by
  intro s a s' h
  cases h
  rfl

theorem pe_evalFunctionExpression (ps : List String) (body : Statement) :
    PreservesEnv (evalFunctionExpression ps body) := by
  intro s a s' h
  cases h
  rfl

/-- On every *successful* return, each evaluator function restores the
current-environment handle it started from (the block and call cases
restore it explicitly; everything else preserves it). -/
theorem successPreservesEnv : ∀ fuel : Nat,
    (∀ st, PreservesEnv (evalStatement fuel st)) ∧
    (∀ obj stmts, PreservesEnv (blockLoop fuel obj stmts)) ∧
    (∀ e, PreservesEnv (evalExpression fuel e)) ∧
    (∀ l op r, PreservesEnv (evalBinaryExpression fuel l op r)) ∧
    (∀ op v, PreservesEnv (evalUnaryExpression fuel op v)) ∧
    (∀ c t alt, PreservesEnv (evalIfExpression fuel c t alt)) ∧
    (∀ args, PreservesEnv (evalArgs fuel args)) ∧
    (∀ p args, PreservesEnv (evalCallExpression fuel p args)) := by
  intro fuel
  induction fuel with
  | zero =>
      refine ⟨?_, ?_, ?_, ?_, ?_, ?_, ?_, ?_⟩
      · intro st s a s' h; simp [evalStatement] at h
      · intro obj stmts s a s' h; simp [blockLoop] at h
      · intro e s a s' h; simp [evalExpression] at h
      · intro l op r s a s' h; simp [evalBinaryExpression] at h
      · intro op v s a s' h; simp [evalUnaryExpression] at h
      · intro c t alt s a s' h; simp [evalIfExpression] at h
      · intro args s a s' h; simp [evalArgs] at h
      · intro p args s a s' h; simp [evalCallExpression] at h
  | succ fuel ih =>
      obtain ⟨ihS, ihL, ihE, ihB, ihU, ihI, ihA, ihC⟩ := ih
      refine ⟨?_, ?_, ?_, ?_, ?_, ?_, ?_, ?_⟩
      · -- statements
        intro st
        cases st with
        | VarStatement name value =>
            refine pe_bind (ihE value) fun obj => ?_
            exact pe_bind (pe_setVarM name obj) fun _ =>
              pe_pure _
        | ReturnStatement e =>
            refine pe_bind (ihE e) fun obj => ?_
            exact pe_bind (pe_setReturned _) fun _ =>
              pe_pure _
        | ExpressionStatement e => exact ihE e
        | BlockStatement stmts =>
            intro s a s' h
            simp only [evalStatement] at h
            rcases hb : blockLoop fuel Object.UnitValue stmts
                { s with store := s.store ++ [⟨[], some s.env⟩],
                         env := s.store.length } with ⟨r, s2⟩
            rw [hb] at h
            cases r with
            | ok o => cases h; rfl
            | err e => simp at h
            | timeout => simp at h
            | panicked => simp at h
      · -- blockLoop
        intro obj stmts
        cases stmts with
        | nil => exact pe_pure obj
        | cons st rest =>
            intro s a s' h
            simp only [blockLoop] at h
            split at h
            · cases h; rfl
            · rcases he : evalStatement fuel st s with ⟨r, s1⟩
              rw [he] at h
              cases r with
              | ok o =>
                  dsimp only at h
                  cases o <;>
                    first
                    | (exact (ihL _ rest s1 a s' h).trans (ihS st s _ s1 he))
                    | (cases h; exact ihS st s _ _ he)
              | err e => simp at h
              | timeout => simp at h
              | panicked => simp at h
      · -- expressions
        intro e
        cases e with
        | IntegerLiteral n => exact pe_pure _
        | BooleanLiteral b => exact pe_pure _
        | Identifier name => exact pe_getVar name
        | BinaryExpression l op r => exact ihB l op r
        | UnaryExpression op v => exact ihU op v
        | GroupedExpression e => exact ihE e
        | CallExpression p args => exact ihC p args
        | IfExpression c t alt => exact ihI c t alt
        | FunctionExpression ps body => exact pe_evalFunctionExpression ps body
      · -- binary
        intro l op r
        refine pe_bind (ihE l) fun lo => ?_
        refine pe_bind (ihE r) fun ro => ?_
        exact pe_liftResult _
      · -- unary
        intro op v
        cases op <;>
          first
          | (refine pe_bind (ihE v) fun obj => ?_;
             cases obj <;>
               first
               | exact pe_pure _
               | exact pe_throw _)
          | exact pe_throw _
      · -- if
        intro c t alt
        refine pe_bind (ihE c) fun condObj => ?_
        cases condObj with
        | BooleanValue lit =>
            cases lit with
            | true => exact ihS t
            | false =>
                cases alt with
                | some altS => exact ihS altS
                | none => exact pe_pure _
        | IntegerValue n => exact pe_throw _
        | StringValue v => exact pe_throw _
        | ReturnValue v => exact pe_throw _
        | FunctionValue c => exact pe_throw _
        | BuiltinValue b => exact pe_throw _
        | UnitValue => exact pe_throw _
      · -- args
        intro args
        cases args with
        | nil => exact pe_pure _
        | cons a rest =>
            refine pe_bind (ihE a) fun v => ?_
            refine pe_bind (ihA rest) fun vs => ?_
            exact pe_pure _
      · -- call
        intro p args s b s'' h
        simp only [evalCallExpression] at h
        rcases hg : getVar p s with ⟨r0, s0⟩
        have hs0 : s0 = s := by
          have hgs := getVar_state p s
          rw [hg] at hgs
          exact hgs
        rw [hg] at h
        cases r0 with
        | ok function =>
            dsimp only at h
            cases function with
            | FunctionValue c =>
                rcases c with ⟨params, body, envIdx⟩
                dsimp only at h
                split at h
                · simp at h
                · rcases ha : evalArgs fuel args s0 with ⟨r1, s1⟩
                  rw [ha] at h
                  cases r1 with
                  | ok argVals =>
                      dsimp only at h
                      rcases hb : evalStatement fuel body
                          (bindParams params argVals { s1 with env := envIdx })
                        with ⟨r2, s2⟩
                      rw [hb] at h
                      cases r2 with
                      | ok bodyObj =>
                          cases h
                          exact (ihA args s0 argVals s1 ha).trans
                            (congrArg EvalState.env hs0)
                      | err e => simp at h
                      | timeout => simp at h
                      | panicked => simp at h
                  | err e => simp at h
                  | timeout => simp at h
                  | panicked => simp at h
            | IntegerValue n => simp at h
            | BooleanValue bv => simp at h
            | StringValue v => simp at h
            | ReturnValue v => simp at h
            | BuiltinValue bf => simp at h
            | UnitValue => simp at h
        | err e => simp at h
        | timeout => simp at h
        | panicked => simp at h

/-- `m` never produces the `ReturnOutsideExpression` error. -/
def NoROE {α : Type} (m : M α) : Prop :=
  ∀ s, (m s).1 ≠ .err .ReturnOutsideExpression

theorem noroe_bind {α β : Type} {x : M α} {f : α → M β}
    (hx : NoROE x) (hf : ∀ a, NoROE (f a)) : NoROE (x >>= f) := by
  intro s hc
  rw [M_bind_eq] at hc
  rcases hx' : x s with ⟨r, s1⟩
  rw [hx'] at hc
  cases r with
  | ok a => exact hf a s1 hc
  | err e =>
      have := hx s
      rw [hx'] at this
      dsimp only at hc
      dsimp only at this
      have he : e = .ReturnOutsideExpression := by injection hc
      exact this (by rw [he])
  | timeout => simp at hc
  | panicked => simp at hc

theorem noroe_pure {α : Type} (a : α) : NoROE (pure a : M α) := by
  intro s hc
  rw [M_pure_eq] at hc
  simp at hc

theorem noroe_throw {α : Type} {e : EvalError}
    (he : e ≠ .ReturnOutsideExpression) : NoROE (throwE e : M α) := by
  intro s hc
  simp only [throwE] at hc
  exact he (by injection hc)

theorem noroe_getVar (name : String) : NoROE (getVar name) := by
  intro s hc
  unfold getVar at hc
  split at hc <;> simp at hc

theorem noroe_setVarM (name : String) (v : Object) : NoROE (setVarM name v) := by
  intro s hc
  simp only [setVarM] at hc
  simp at hc

theorem noroe_setReturned (r : Option Object) : NoROE (setReturned r) := by
  intro s hc
  simp only [setReturned] at hc
  simp at hc

theorem noroe_evalFunctionExpression (ps : List String) (body : Statement) :
    NoROE (evalFunctionExpression ps body) := by
  intro s hc
  simp only [evalFunctionExpression, createEnclosedEnv, M_bind_eq, M_pure_eq] at hc
  simp at hc

/-- The pure binary dispatch produces arithmetic, unsupported-operator
and type-mismatch errors only — never `ReturnOutsideExpression`. -/
theorem binaryOpEval_no_roe (l : Object) (op : TokenKind) (r : Object) :
    binaryOpEval l op r ≠ .error .ReturnOutsideExpression := by
  intro hc
  cases l <;> cases r <;> try cases op
  all_goals simp [binaryOpEval] at hc
  all_goals (split at hc <;> first | simp at hc | (split at hc <;> simp at hc))

theorem noroe_liftResult {r : OpResult}
    (h : r ≠ .error .ReturnOutsideExpression) : NoROE (liftResult r) := by
  cases r with
  | ok a => exact noroe_pure a
  | error e => exact noroe_throw (fun hr => h (by rw [hr]))
  | panicked => intro s hc; simp [liftResult] at hc

/-- No function of the evaluator ever produces the
`ReturnOutsideExpression` error (the variant is declared in `object.rs`
but `evaluator.rs` never constructs it). -/
theorem evalNeverROE : ∀ fuel : Nat,
    (∀ st, NoROE (evalStatement fuel st)) ∧
    (∀ obj stmts, NoROE (blockLoop fuel obj stmts)) ∧
    (∀ e, NoROE (evalExpression fuel e)) ∧
    (∀ l op r, NoROE (evalBinaryExpression fuel l op r)) ∧
    (∀ op v, NoROE (evalUnaryExpression fuel op v)) ∧
    (∀ c t alt, NoROE (evalIfExpression fuel c t alt)) ∧
    (∀ args, NoROE (evalArgs fuel args)) ∧
    (∀ p args, NoROE (evalCallExpression fuel p args)) := by
  intro fuel
  induction fuel with
  | zero =>
      refine ⟨?_, ?_, ?_, ?_, ?_, ?_, ?_, ?_⟩
      · intro st s hc; simp [evalStatement] at hc
      · intro obj stmts s hc; simp [blockLoop] at hc
      · intro e s hc; simp [evalExpression] at hc
      · intro l op r s hc; simp [evalBinaryExpression] at hc
      · intro op v s hc; simp [evalUnaryExpression] at hc
      · intro c t alt s hc; simp [evalIfExpression] at hc
      · intro args s hc; simp [evalArgs] at hc
      · intro p args s hc; simp [evalCallExpression] at hc
  | succ fuel ih =>
      obtain ⟨ihS, ihL, ihE, ihB, ihU, ihI, ihA, ihC⟩ := ih
      refine ⟨?_, ?_, ?_, ?_, ?_, ?_, ?_, ?_⟩
      · -- statements
        intro st
        cases st with
        | VarStatement name value =>
            refine noroe_bind (ihE value) fun obj => ?_
            exact noroe_bind (noroe_setVarM name obj) fun _ => noroe_pure _
        | ReturnStatement e =>
            refine noroe_bind (ihE e) fun obj => ?_
            exact noroe_bind (noroe_setReturned _) fun _ => noroe_pure _
        | ExpressionStatement e => exact ihE e
        | BlockStatement stmts =>
            intro s hc
            simp only [evalStatement] at hc
            rcases hb : blockLoop fuel Object.UnitValue stmts
                { s with store := s.store ++ [⟨[], some s.env⟩],
                         env := s.store.length } with ⟨r, s2⟩
            rw [hb] at hc
            have hl := ihL Object.UnitValue stmts
              { s with store := s.store ++ [⟨[], some s.env⟩],
                       env := s.store.length }
            rw [hb] at hl
            cases r with
            | ok o => simp at hc
            | err e => exact hl hc
            | timeout => simp at hc
            | panicked => simp at hc
      · -- blockLoop
        intro obj stmts
        cases stmts with
        | nil => exact noroe_pure obj
        | cons st rest =>
            intro s hc
            simp only [blockLoop] at hc
            split at hc
            · simp at hc
            · rcases he : evalStatement fuel st s with ⟨r, s1⟩
              rw [he] at hc
              have hs := ihS st s
              rw [he] at hs
              cases r with
              | ok o =>
                  dsimp only at hc
                  cases o <;>
                    first
                    | exact ihL _ rest s1 hc
                    | simp at hc
              | err e => exact hs hc
              | timeout => simp at hc
              | panicked => simp at hc
      · -- expressions
        intro e
        cases e with
        | IntegerLiteral n => exact noroe_pure _
        | BooleanLiteral b => exact noroe_pure _
        | Identifier name => exact noroe_getVar name
        | BinaryExpression l op r => exact ihB l op r
        | UnaryExpression op v => exact ihU op v
        | GroupedExpression e => exact ihE e
        | CallExpression p args => exact ihC p args
        | IfExpression c t alt => exact ihI c t alt
        | FunctionExpression ps body => exact noroe_evalFunctionExpression ps body
      · -- binary
        intro l op r
        refine noroe_bind (ihE l) fun lo => ?_
        refine noroe_bind (ihE r) fun ro => ?_
        exact noroe_liftResult (binaryOpEval_no_roe lo op ro)
      · -- unary
        intro op v
        cases op <;>
          first
          | (refine noroe_bind (ihE v) fun obj => ?_;
             cases obj <;>
               first
               | exact noroe_pure _
               | exact noroe_throw (by intro hr; cases hr))
          | exact noroe_throw (by intro hr; cases hr)
      · -- if
        intro c t alt
        refine noroe_bind (ihE c) fun condObj => ?_
        cases condObj with
        | BooleanValue lit =>
            cases lit with
            | true => exact ihS t
            | false =>
                cases alt with
                | some altS => exact ihS altS
                | none => exact noroe_pure _
        | IntegerValue n => exact noroe_throw (by intro hr; cases hr)
        | StringValue v => exact noroe_throw (by intro hr; cases hr)
        | ReturnValue v => exact noroe_throw (by intro hr; cases hr)
        | FunctionValue c => exact noroe_throw (by intro hr; cases hr)
        | BuiltinValue b => exact noroe_throw (by intro hr; cases hr)
        | UnitValue => exact noroe_throw (by intro hr; cases hr)
      · -- args
        intro args
        cases args with
        | nil => exact noroe_pure _
        | cons a rest =>
            refine noroe_bind (ihE a) fun v => ?_
            refine noroe_bind (ihA rest) fun vs => ?_
            exact noroe_pure _
      · -- call
        intro p args s hc
        simp only [evalCallExpression] at hc
        rcases hg : getVar p s with ⟨r0, s0⟩
        rw [hg] at hc
        have hgv := noroe_getVar p s
        rw [hg] at hgv
        cases r0 with
        | ok function =>
            dsimp only at hc
            cases function with
            | FunctionValue c =>
                rcases c with ⟨params, body, envIdx⟩
                dsimp only at hc
                split at hc
                · simp at hc
                · rcases ha : evalArgs fuel args s0 with ⟨r1, s1⟩
                  rw [ha] at hc
                  have hA := ihA args s0
                  rw [ha] at hA
                  cases r1 with
                  | ok argVals =>
                      dsimp only at hc
                      rcases hb : evalStatement fuel body
                          (bindParams params argVals { s1 with env := envIdx })
                        with ⟨r2, s2⟩
                      rw [hb] at hc
                      have hB := ihS body
                        (bindParams params argVals { s1 with env := envIdx })
                      rw [hb] at hB
                      cases r2 with
                      | ok bodyObj => simp at hc
                      | err e => exact hB hc
                      | timeout => simp at hc
                      | panicked => simp at hc
                  | err e =>
                      dsimp only at hc
                      dsimp only at hA
                      have he : e = .ReturnOutsideExpression := by injection hc
                      exact hA (by rw [he])
                  | timeout => simp at hc
                  | panicked => simp at hc
            | IntegerValue n => simp at hc
            | BooleanValue bv => simp at hc
            | StringValue v => simp at hc
            | ReturnValue v => simp at hc
            | BuiltinValue bf => simp at hc
            | UnitValue => simp at hc
        | err e => exact hgv hc
        | timeout => simp at hc
        | panicked => simp at hc

/-! ## Concrete programs used by the claims -/

/-- The body `{ x + y; }` of the inner function literal. -/
def adderInnerBody : Statement :=
  .BlockStatement [.ExpressionStatement
    (.BinaryExpression (.Identifier "x") .Plus (.Identifier "y"))]

/-- The body `{ fn(y) { x + y; }; }` of `newAdder`. -/
def adderOuterBody : Statement :=
  .BlockStatement [.ExpressionStatement (.FunctionExpression ["y"] adderInnerBody)]

/-- `let newAdder = fn(x) { fn(y) { x + y; }; };` -/
def sharedSt1 : Statement :=
  .VarStatement "newAdder" (.FunctionExpression ["x"] adderOuterBody)

/-- `let addTwo = newAdder(2);` -/
def sharedSt2 : Statement :=
  .VarStatement "addTwo" (.CallExpression "newAdder" [.IntegerLiteral 2])

/-- `let addTen = newAdder(10);` -/
def sharedSt3 : Statement :=
  .VarStatement "addTen" (.CallExpression "newAdder" [.IntegerLiteral 10])

/-- `addTwo(2);` -/
def sharedSt4 : Statement :=
  .ExpressionStatement (.CallExpression "addTwo" [.IntegerLiteral 2])

/-- A program that distinguishes the source's call semantics (one frame
per closure, created at definition time and shared by every call) from
per-call fresh frames: `let newAdder = fn(x) { fn(y) { x + y; }; };
let addTwo = newAdder(2); let addTen = newAdder(10); addTwo(2);`. -/
def sharedFrameProg : List Statement := [sharedSt1, sharedSt2, sharedSt3, sharedSt4]

/-- The closure value of `newAdder` (its stored frame is handle 1). -/
def newAdderClosure : Object :=
  .FunctionValue ⟨["x"], adderOuterBody, 1⟩

def sharedA1 : EvalState :=
  ⟨[⟨[("newAdder", newAdderClosure)], none⟩,
    ⟨[], some 0⟩],
   0, none⟩

def sharedA2 : EvalState :=
  ⟨[⟨[("addTwo", .FunctionValue ⟨["y"], adderInnerBody, 3⟩),
      ("newAdder", newAdderClosure)], none⟩,
    ⟨[("x", .IntegerValue 2)], some 0⟩,
    ⟨[], some 1⟩,
    ⟨[], some 2⟩],
   0, none⟩

def sharedA3 : EvalState :=
  ⟨[⟨[("addTen", .FunctionValue ⟨["y"], adderInnerBody, 5⟩),
      ("addTwo", .FunctionValue ⟨["y"], adderInnerBody, 3⟩),
      ("newAdder", newAdderClosure)], none⟩,
    ⟨[("x", .IntegerValue 10)], some 0⟩,
    ⟨[], some 1⟩,
    ⟨[], some 2⟩,
    ⟨[], some 1⟩,
    ⟨[], some 4⟩],
   0, none⟩

def sharedA4 : EvalState :=
  ⟨[⟨[("addTen", .FunctionValue ⟨["y"], adderInnerBody, 5⟩),
      ("addTwo", .FunctionValue ⟨["y"], adderInnerBody, 3⟩),
      ("newAdder", newAdderClosure)], none⟩,
    ⟨[("x", .IntegerValue 10)], some 0⟩,
    ⟨[], some 1⟩,
    ⟨[("y", .IntegerValue 2)], some 2⟩,
    ⟨[], some 1⟩,
    ⟨[], some 4⟩,
    ⟨[], some 3⟩],
   0, none⟩

theorem sharedStepA1 :
    evalStatement 20 sharedSt1 initState = (.ok .UnitValue, sharedA1) := rfl

theorem sharedStepA2 :
    evalStatement 20 sharedSt2 sharedA1 = (.ok .UnitValue, sharedA2) := rfl

theorem sharedStepA3 :
    evalStatement 20 sharedSt3 sharedA2 = (.ok .UnitValue, sharedA3) := rfl

theorem sharedStepA4 :
    evalStatement 20 sharedSt4 sharedA3 = (.ok (.IntegerValue 12), sharedA4) := rfl

/-- Under the source evaluator, `addTwo(2)` yields 12 after
`newAdder(10)` has rebound `x` in the shared closure frame. -/
theorem runProgram_sharedFrameProg :
    runProgram 20 sharedFrameProg =
      (.ok [.UnitValue, .UnitValue, .UnitValue, .IntegerValue 12], sharedA4) :=
  evalProgramStmts_cons sharedStepA1
    (evalProgramStmts_cons sharedStepA2
      (evalProgramStmts_cons sharedStepA3
        (evalProgramStmts_cons sharedStepA4 (evalProgramStmts_nil 20 sharedA4))))

/-- The closure value of `newAdder` under the claim-C1 semantics (the
captured environment is the global frame itself, handle 0). -/
def newAdderClosureS : Object :=
  .FunctionValue ⟨["x"], adderOuterBody, 0⟩

def sharedB1 : EvalState :=
  ⟨[⟨[("newAdder", newAdderClosureS)], none⟩],
   0, none⟩

def sharedB2 : EvalState :=
  ⟨[⟨[("addTwo", .FunctionValue ⟨["y"], adderInnerBody, 2⟩),
      ("newAdder", newAdderClosureS)], none⟩,
    ⟨[("x", .IntegerValue 2)], some 0⟩,
    ⟨[], some 1⟩],
   0, none⟩

def sharedB3 : EvalState :=
  ⟨[⟨[("addTen", .FunctionValue ⟨["y"], adderInnerBody, 4⟩),
      ("addTwo", .FunctionValue ⟨["y"], adderInnerBody, 2⟩),
      ("newAdder", newAdderClosureS)], none⟩,
    ⟨[("x", .IntegerValue 2)], some 0⟩,
    ⟨[], some 1⟩,
    ⟨[("x", .IntegerValue 10)], some 0⟩,
    ⟨[], some 3⟩],
   0, none⟩

def sharedB4 : EvalState :=
  ⟨[⟨[("addTen", .FunctionValue ⟨["y"], adderInnerBody, 4⟩),
      ("addTwo", .FunctionValue ⟨["y"], adderInnerBody, 2⟩),
      ("newAdder", newAdderClosureS)], none⟩,
    ⟨[("x", .IntegerValue 2)], some 0⟩,
    ⟨[], some 1⟩,
    ⟨[("x", .IntegerValue 10)], some 0⟩,
    ⟨[], some 3⟩,
    ⟨[("y", .IntegerValue 2)], some 2⟩,
    ⟨[], some 5⟩],
   0, none⟩

theorem sharedStepB1 :
    evalStatementS 20 sharedSt1 initState = (.ok .UnitValue, sharedB1) := rfl

theorem sharedStepB2 :
    evalStatementS 20 sharedSt2 sharedB1 = (.ok .UnitValue, sharedB2) := rfl

theorem sharedStepB3 :
    evalStatementS 20 sharedSt3 sharedB2 = (.ok .UnitValue, sharedB3) := rfl

theorem sharedStepB4 :
    evalStatementS 20 sharedSt4 sharedB3 = (.ok (.IntegerValue 4), sharedB4) := rfl

/-- Under the claim-C1 semantics (fresh frame per call, chained to the
captured environment), `addTwo` keeps seeing `x = 2` and `addTwo(2)`
yields 4 even after `newAdder(10)`. -/
theorem runProgramS_sharedFrameProg :
    runProgramS 20 sharedFrameProg =
      (.ok [.UnitValue, .UnitValue, .UnitValue, .IntegerValue 4], sharedB4) :=
  evalProgramStmtsS_cons sharedStepB1
    (evalProgramStmtsS_cons sharedStepB2
      (evalProgramStmtsS_cons sharedStepB3
        (evalProgramStmtsS_cons sharedStepB4 (by rfl))))

/-! ## The claims -/

/-- What a call does after the arity check passes, in the source: the
arguments are evaluated (left to right) in the caller's state `s`; then
the closure's *stored* frame `envIdx` becomes current, the parameters
are bound in it, the body is evaluated, and on success the caller's
environment is restored. -/
def callAfterArityCheck (fuel : Nat) (params : List String) (body : Statement)
    (envIdx : Nat) (args : List Expression) (s : EvalState) :
    EvalResult Object × EvalState :=
  match evalArgs fuel args s with
  | (.ok argVals, s1) =>
    match evalStatement fuel body
            (bindParams params argVals { s1 with env := envIdx }) with
    | (.ok bodyObj, s2) => (.ok bodyObj, { s2 with env := s1.env })
    | r => r
  | (.err e, s1) => (.err e, s1)
  | (.timeout, s1) => (.timeout, s1)
  | (.panicked, s1) => (.panicked, s1)

/-- C1, counterexample.  The claim prescribes a *fresh* frame per call,
chained to the closure's captured environment.  The source instead makes
the closure's stored frame (created once, at function-literal
evaluation) current and rebinds the parameters in it, so the frame is
shared across calls of the same closure.  On the program
`let newAdder = fn(x) { fn(y) { x + y; }; }; let addTwo = newAdder(2);
let addTen = newAdder(10); addTwo(2);` the source evaluator yields 12
for the last statement (the second `newAdder` call rebound `x` to 10 in
the shared frame that `addTwo`'s environment chain passes through),
while the claim's own semantics (`runProgramS`) yields 4. -/
theorem C1_counterexample :
    (runProgram 20 sharedFrameProg).1 =
      .ok [.UnitValue, .UnitValue, .UnitValue, .IntegerValue 12] ∧
    (runProgramS 20 sharedFrameProg).1 =
      .ok [.UnitValue, .UnitValue, .UnitValue, .IntegerValue 4] ∧
    (runProgram 20 sharedFrameProg).1 ≠ (runProgramS 20 sharedFrameProg).1 := by
  refine ⟨?_, ?_, ?_⟩
  · rw [runProgram_sharedFrameProg]
  · rw [runProgramS_sharedFrameProg]
  · rw [runProgram_sharedFrameProg, runProgramS_sharedFrameProg]
    simp

/-- C1, amended.  For a call whose callee resolves to a closure with
matching arity: the argument expressions are evaluated in the caller's
current environment, left to right, before any environment switch (and
argument evaluation never moves the caller's environment handle on
success); then the closure's *stored* frame — created once, fresh, at
function-literal evaluation time, chained to the definition-site
environment, and shared by every call of that closure — becomes the
current environment, each parameter is (re)bound to its argument in that
frame, the body is evaluated there, and the caller's environment is
restored on success. -/
theorem C1_call_uses_stored_definition_frame :
    (∀ (fuel : Nat) (ps : List String) (body : Statement) (s : EvalState),
       evalExpression (fuel+1) (.FunctionExpression ps body) s =
         (.ok (.FunctionValue ⟨ps, body, s.store.length⟩),
          { s with store := s.store ++ [⟨[], some s.env⟩] })) ∧
    (∀ (fuel : Nat) (path : String) (args : List Expression) (s : EvalState)
       (params : List String) (body : Statement) (envIdx : Nat),
       getVar path s = (.ok (.FunctionValue ⟨params, body, envIdx⟩), s) →
       params.length = args.length →
       evalCallExpression (fuel+1) path args s =
         callAfterArityCheck fuel params body envIdx args s) ∧
    (∀ (fuel : Nat) (args : List Expression) (s : EvalState)
       (vals : List Object) (s1 : EvalState),
       evalArgs fuel args s = (.ok vals, s1) → s1.env = s.env) := by
  refine ⟨fun fuel ps body s => rfl, ?_, ?_⟩
  · intro fuel path args s params body envIdx hget hlen
    simp only [evalCallExpression]
    rw [hget]
    dsimp only
    rw [hlen]
    simp only [ne_eq, not_true_eq_false, if_false]
    rfl
  · intro fuel args s vals s1 h
    exact (successPreservesEnv fuel).2.2.2.2.2.2.1 args s vals s1 h

/-- C1, witness for the amended theorem: the call `newAdder(2)` in the
state reached after `newAdder`'s definition resolves to the closure
whose stored frame is handle 1, has matching arity 1 = 1, and proceeds
exactly as `callAfterArityCheck`. -/
theorem C1_witness :
    getVar "newAdder" sharedA1 = (.ok newAdderClosure, sharedA1) ∧
    (["x"] : List String).length = ([.IntegerLiteral 2] : List Expression).length ∧
    evalCallExpression 8 "newAdder" [.IntegerLiteral 2] sharedA1 =
      callAfterArityCheck 7 ["x"] adderOuterBody 1 [.IntegerLiteral 2] sharedA1 ∧
    evalArgs 7 [.IntegerLiteral 2] sharedA1 = (.ok [.IntegerValue 2], sharedA1) ∧
    sharedA1.env = sharedA1.env :=
  ⟨rfl, rfl,
   C1_call_uses_stored_definition_frame.2.1 7 "newAdder" [.IntegerLiteral 2]
     sharedA1 ["x"] adderOuterBody 1 rfl rfl,
   rfl,
   C1_call_uses_stored_definition_frame.2.2 7 [.IntegerLiteral 2] sharedA1
     [.IntegerValue 2] sharedA1 rfl⟩

/-- `{ 1 / 0; }` — a block whose only statement fails. -/
def divByZeroBlock : Statement :=
  .BlockStatement [.ExpressionStatement
    (.BinaryExpression (.IntegerLiteral 1) .Slash (.IntegerLiteral 0))]

/-- C2, counterexample.  Evaluating the block `{ 1 / 0; }` from the
initial state propagates the division error *before* the saved outer
environment is written back (`self.env = outer_env` is skipped by `?`),
so the inner frame (handle 1) is still current when the operation
returns: the claim's "on every exit path — … and error propagation
alike" fails. -/
theorem C2_counterexample :
    (evalStatement 8 divByZeroBlock initState).1 = .err .DivisionByZero ∧
    (evalStatement 8 divByZeroBlock initState).2.env = 1 ∧
    initState.env = 0 ∧
    (evalStatement 8 divByZeroBlock initState).2.env ≠ initState.env :=
  ⟨rfl, rfl, rfl, by decide⟩

/-- C2, amended.  The environment that was current on entry is current
again whenever block evaluation or call evaluation (or any statement or
expression evaluation) returns *successfully* — normal completion and
early-return exits alike; on error propagation the inner environment can
remain current (the whole run aborts on the first error, so it is never
used again). -/
theorem C2_env_restored_on_success :
    (∀ (fuel : Nat) (stmts : List Statement) (s : EvalState) (o : Object)
       (s' : EvalState),
       evalStatement fuel (.BlockStatement stmts) s = (.ok o, s') →
       s'.env = s.env) ∧
    (∀ (fuel : Nat) (path : String) (args : List Expression) (s : EvalState)
       (o : Object) (s' : EvalState),
       evalCallExpression fuel path args s = (.ok o, s') → s'.env = s.env) ∧
    (∀ (fuel : Nat) (st : Statement) (s : EvalState) (o : Object)
       (s' : EvalState),
       evalStatement fuel st s = (.ok o, s') → s'.env = s.env) ∧
    (∀ (fuel : Nat) (e : Expression) (s : EvalState) (o : Object)
       (s' : EvalState),
       evalExpression fuel e s = (.ok o, s') → s'.env = s.env) := by
  refine ⟨?_, ?_, ?_, ?_⟩
  · intro fuel stmts s o s' h
    exact (successPreservesEnv fuel).1 _ s o s' h
  · intro fuel path args s o s' h
    exact (successPreservesEnv fuel).2.2.2.2.2.2.2 path args s o s' h
  · intro fuel st s o s' h
    exact (successPreservesEnv fuel).1 st s o s' h
  · intro fuel e s o s' h
    exact (successPreservesEnv fuel).2.2.1 e s o s' h

/-- The state after the call expression `newAdder(2)` evaluated in
`sharedA1` (before `let addTwo` binds the result). -/
def sharedA2half : EvalState :=
  ⟨[⟨[("newAdder", newAdderClosure)], none⟩,
    ⟨[("x", .IntegerValue 2)], some 0⟩,
    ⟨[], some 1⟩,
    ⟨[], some 2⟩],
   0, none⟩

/-- C2, witness: a successful block evaluation (`{ 7; }`) and a
successful call (`newAdder(2)`) both end with the entry environment
(handle 0, resp. the environment of `sharedA1`) current again. -/
theorem C2_witness :
    evalStatement 8 (.BlockStatement [.ExpressionStatement (.IntegerLiteral 7)])
      initState =
      (.ok (.IntegerValue 7), ⟨[⟨[], none⟩, ⟨[], some 0⟩], 0, none⟩) ∧
    (⟨[⟨[], none⟩, ⟨[], some 0⟩], 0, none⟩ : EvalState).env = initState.env ∧
    evalCallExpression 18 "newAdder" [.IntegerLiteral 2] sharedA1 =
      (.ok (.FunctionValue ⟨["y"], adderInnerBody, 3⟩), sharedA2half) ∧
    sharedA2half.env = sharedA1.env :=
  ⟨rfl,
   C2_env_restored_on_success.1 8 [.ExpressionStatement (.IntegerLiteral 7)]
     initState (.IntegerValue 7) ⟨[⟨[], none⟩, ⟨[], some 0⟩], 0, none⟩ rfl,
   rfl,
   C2_env_restored_on_success.2.1 18 "newAdder" [.IntegerLiteral 2] sharedA1
     (.FunctionValue ⟨["y"], adderInnerBody, 3⟩) sharedA2half rfl⟩

/-- C3.  Block evaluation creates a fresh frame chained to the current
environment, runs the statement loop starting from the unit value, and
restores the environment on success (first conjunct).  The loop checks,
per iteration: (a) *before* evaluating a statement, if the pending-return
flag is set the flag is cleared and the loop stops, keeping the last
value produced (the initial unit value when no statement of the block has
run); (b) *after* evaluating a statement, if its result is the
`ReturnValue` wrapper the loop stops with that result; otherwise the loop
continues with the statement's value as the new "last value".  An empty
block completes normally with the unit value. -/
theorem C3_block_statement_semantics :
    (∀ (fuel : Nat) (stmts : List Statement) (s : EvalState),
       evalStatement (fuel+1) (.BlockStatement stmts) s =
         match blockLoop fuel Object.UnitValue stmts
             { s with store := s.store ++ [⟨[], some s.env⟩],
                      env := s.store.length } with
         | (.ok obj, s2) => (.ok obj, { s2 with env := s.env })
         | (.err e, s2) => (.err e, s2)
         | (.timeout, s2) => (.timeout, s2)
         | (.panicked, s2) => (.panicked, s2)) ∧
    (∀ (fuel : Nat) (obj : Object) (st : Statement) (rest : List Statement)
       (s : EvalState) (r : Object),
       s.returnedValue = some r →
       blockLoop (fuel+1) obj (st :: rest) s =
         (.ok obj, { s with returnedValue := none })) ∧
    (∀ (fuel : Nat) (obj : Object) (st : Statement) (rest : List Statement)
       (s : EvalState) (v : Object) (s1 : EvalState),
       s.returnedValue = none →
       evalStatement fuel st s = (.ok (.ReturnValue v), s1) →
       blockLoop (fuel+1) obj (st :: rest) s = (.ok (.ReturnValue v), s1)) ∧
    (∀ (fuel : Nat) (obj : Object) (st : Statement) (rest : List Statement)
       (s : EvalState) (o : Object) (s1 : EvalState),
       s.returnedValue = none →
       evalStatement fuel st s = (.ok o, s1) →
       o.isReturnValue = false →
       blockLoop (fuel+1) obj (st :: rest) s = blockLoop fuel o rest s1) ∧
    (∀ (fuel : Nat) (obj : Object) (s : EvalState),
       blockLoop (fuel+1) obj [] s = (.ok obj, s)) ∧
    (∀ (fuel : Nat) (s : EvalState),
       evalStatement (fuel+2) (.BlockStatement []) s =
         (.ok Object.UnitValue,
          { s with store := s.store ++ [⟨[], some s.env⟩] })) := by
  refine ⟨fun fuel stmts s => rfl, ?_, ?_, ?_, fun fuel obj s => rfl, ?_⟩
  · intro fuel obj st rest s r h
    simp only [blockLoop]
    rw [h]
  · intro fuel obj st rest s v s1 hflag heval
    simp only [blockLoop]
    rw [hflag, heval]
  · intro fuel obj st rest s o s1 hflag heval hnr
    simp only [blockLoop]
    rw [hflag, heval]
    cases o <;> first
      | rfl
      | simp [Object.isReturnValue] at hnr
  · intro fuel s
    rfl

/-- C3, witness: the three guarded behaviours at concrete inputs — a
pending return truncates the loop and is cleared; a `ReturnValue` result
stops the loop; an ordinary value continues the loop as the new last
value. -/
theorem C3_witness :
    (⟨[⟨[], none⟩], 0, some (.IntegerValue 9)⟩ : EvalState).returnedValue =
      some (.IntegerValue 9) ∧
    blockLoop 6 (.IntegerValue 1) [.ExpressionStatement (.IntegerLiteral 7)]
      ⟨[⟨[], none⟩], 0, some (.IntegerValue 9)⟩ =
      (.ok (.IntegerValue 1), ⟨[⟨[], none⟩], 0, none⟩) ∧
    evalStatement 5 (.ReturnStatement (.IntegerLiteral 5)) initState =
      (.ok (.ReturnValue (.IntegerValue 5)),
       ⟨[⟨[], none⟩], 0, some (.IntegerValue 5)⟩) ∧
    blockLoop 6 Object.UnitValue
      [.ReturnStatement (.IntegerLiteral 5),
       .ExpressionStatement (.IntegerLiteral 7)] initState =
      (.ok (.ReturnValue (.IntegerValue 5)),
       ⟨[⟨[], none⟩], 0, some (.IntegerValue 5)⟩) ∧
    evalStatement 5 (.ExpressionStatement (.IntegerLiteral 7)) initState =
      (.ok (.IntegerValue 7), initState) ∧
    blockLoop 6 Object.UnitValue
      [.ExpressionStatement (.IntegerLiteral 7),
       .ExpressionStatement (.IntegerLiteral 9)] initState =
      blockLoop 5 (.IntegerValue 7) [.ExpressionStatement (.IntegerLiteral 9)]
        initState :=
  ⟨rfl,
   C3_block_statement_semantics.2.1 5 (.IntegerValue 1)
     (.ExpressionStatement (.IntegerLiteral 7)) []
     ⟨[⟨[], none⟩], 0, some (.IntegerValue 9)⟩ (.IntegerValue 9) rfl,
   rfl,
   C3_block_statement_semantics.2.2.1 5 Object.UnitValue
     (.ReturnStatement (.IntegerLiteral 5))
     [.ExpressionStatement (.IntegerLiteral 7)] initState (.IntegerValue 5)
     ⟨[⟨[], none⟩], 0, some (.IntegerValue 5)⟩ rfl rfl,
   rfl,
   C3_block_statement_semantics.2.2.2.1 5 Object.UnitValue
     (.ExpressionStatement (.IntegerLiteral 7))
     [.ExpressionStatement (.IntegerLiteral 9)] initState (.IntegerValue 7)
     initState rfl rfl rfl⟩

/-- C4, counterexample.  `i32::MIN` is reachable without any overflow
(`0 - 2147483647 - 1`), and at `a = i32::MIN`, `b = -1` the divisor is
nonzero yet `a / b` and `a % b` return no value: Rust's `/` and `%`
panic unconditionally there ("attempt to divide with overflow"), the
quotient 2^31 being unrepresentable in `i32` — contradicting the
claim's "if b is nonzero, evaluating a / b returns the native
truncating integer quotient". -/
theorem C4_counterexample :
    binaryOpEval (.IntegerValue (-2147483648)) .Slash (.IntegerValue (-1)) =
      .panicked ∧
    binaryOpEval (.IntegerValue (-2147483648)) .Percentage (.IntegerValue (-1)) =
      .panicked ∧
    (-1 : Int) ≠ 0 ∧
    evalExpression 10
        (.BinaryExpression
          (.BinaryExpression
            (.BinaryExpression (.IntegerLiteral 0) .Minus
              (.IntegerLiteral 2147483647))
            .Minus (.IntegerLiteral 1))
          .Slash
          (.BinaryExpression (.IntegerLiteral 0) .Minus (.IntegerLiteral 1)))
        initState =
      (.panicked, initState) :=
  ⟨rfl, rfl, by decide, rfl⟩

/-- C4, amended.  For all integer operands `a`, `b` and any state:
`b = 0` fails with the dedicated `DivisionByZero` (resp. `ModuloByZero`)
error and produces no value; `(a, b) = (i32::MIN, -1)` panics (aborts
the run) for both `/` and `%`, producing neither a value nor an
`EvalError`; for every other `b ≠ 0`, `a / b` evaluates to the native
truncating quotient `Int.tdiv a b` and `a % b` to the native truncating
remainder `Int.tmod a b`.  In every failure the state is unchanged. -/
theorem C4_division_modulo :
    ∀ (a b : Int) (fuel : Nat) (s : EvalState),
      evalExpression (fuel+3)
          (.BinaryExpression (.IntegerLiteral a) .Slash (.IntegerLiteral b)) s =
        (if b = 0 then ((.err .DivisionByZero : EvalResult Object), s)
         else if a = -2147483648 ∧ b = -1 then (.panicked, s)
         else (.ok (.IntegerValue (Int.tdiv a b)), s)) ∧
      evalExpression (fuel+3)
          (.BinaryExpression (.IntegerLiteral a) .Percentage (.IntegerLiteral b)) s =
        (if b = 0 then ((.err .ModuloByZero : EvalResult Object), s)
         else if a = -2147483648 ∧ b = -1 then (.panicked, s)
         else (.ok (.IntegerValue (Int.tmod a b)), s)) := by
  intro a b fuel s
  constructor <;>
    · by_cases hb : b = 0 <;>
        by_cases hov : a = -2147483648 ∧ b = -1 <;>
          simp [hb, hov, evalExpression, evalBinaryExpression, binaryOpEval,
            M_bind_eq, M_pure_eq, liftResult, throwE]

/-- `let i = 5; let f = fn(i) { i; }; f(10); i;` -/
def staticScopeProg : List Statement :=
  [ .VarStatement "i" (.IntegerLiteral 5),
    .VarStatement "f" (.FunctionExpression ["i"]
      (.BlockStatement [.ExpressionStatement (.Identifier "i")])),
    .ExpressionStatement (.CallExpression "f" [.IntegerLiteral 10]),
    .ExpressionStatement (.Identifier "i") ]

/-- C5.  On `let i = 5; let f = fn(i) { i }; f(10); i;` the call binds
the parameter `i` in the closure's own frame, not the caller's: the call
yields 10, the final statement still yields 5, and the global frame's
binding of `i` is still 5 after the run. -/
theorem C5_static_scoping :
    (runProgram 20 staticScopeProg).1 =
      .ok [.UnitValue, .UnitValue, .IntegerValue 10, .IntegerValue 5] ∧
    ((runProgram 20 staticScopeProg).2.store.headD ⟨[], none⟩).lookup "i" =
      some (.IntegerValue 5) :=
  ⟨rfl, rfl⟩

/-- C6, counterexample.  An ordering operator on two booleans (a
*matching* pairing) fails with `UnsupportedOperator` — an error variant
that is not the type-mismatch one and whose message names only the
operator — contradicting the claim that such a failure is a
type-mismatch error naming both operand values. -/
theorem C6_counterexample :
    binaryOpEval (.BooleanValue true) .LessThan (.BooleanValue false) =
      .error (.UnsupportedOperator .LessThan) ∧
    (EvalError.UnsupportedOperator .LessThan).isTypeMismatch = false ∧
    evalExpression 3
        (.BinaryExpression (.BooleanLiteral true) .LessThan
          (.BooleanLiteral false)) initState =
      (.err (.UnsupportedOperator .LessThan), initState) :=
  ⟨rfl, rfl, rfl⟩

/-- C6, amended.  Boolean/boolean supports exactly equality and
inequality; any *other* operator on two booleans, and any operator the
integer/integer arm does not support, fails with an
`UnsupportedOperator` error naming the operator only; a *mismatched*
type pairing (not integer/integer and not boolean/boolean) fails with a
`TypeMismatch` error whose message names both operand values and the
operator. -/
theorem C6_binary_dispatch_errors :
    (∀ (lb rb : Bool),
       binaryOpEval (.BooleanValue lb) .Equal (.BooleanValue rb) =
         .ok (.BooleanValue (lb == rb)) ∧
       binaryOpEval (.BooleanValue lb) .NotEqual (.BooleanValue rb) =
         .ok (.BooleanValue (lb != rb))) ∧
    (∀ (lb rb : Bool) (op : TokenKind),
       op ≠ .Equal → op ≠ .NotEqual →
       binaryOpEval (.BooleanValue lb) op (.BooleanValue rb) =
         .error (.UnsupportedOperator op)) ∧
    (∀ (a b : Int) (op : TokenKind),
       op.intBinarySupported = false →
       binaryOpEval (.IntegerValue a) op (.IntegerValue b) =
         .error (.UnsupportedOperator op)) ∧
    (∀ (l r : Object) (op : TokenKind),
       ¬(l.isInteger = true ∧ r.isInteger = true) →
       ¬(l.isBoolean = true ∧ r.isBoolean = true) →
       binaryOpEval l op r = .error (.TypeMismatch (typeMismatchMsg op l r))) := by
  refine ⟨fun lb rb => ⟨rfl, rfl⟩, ?_, ?_, ?_⟩
  · intro lb rb op h1 h2
    cases op <;> first
      | rfl
      | exact absurd rfl h1
      | exact absurd rfl h2
  · intro a b op h
    cases op <;> first
      | rfl
      | simp [TokenKind.intBinarySupported] at h
  · intro l r op h1 h2
    cases l <;> cases r <;> first
      | rfl
      | (exfalso; exact h1 ⟨rfl, rfl⟩)
      | (exfalso; exact h2 ⟨rfl, rfl⟩)

/-- C6, witness: `true > false` hits the unsupported-operator arm of the
boolean pairing; `1 ! 2` (the bang token as an infix operator) is
unsupported for integers; `1 + true` is a mismatched pairing and produces
the type-mismatch message naming `1`, `true` and `+`. -/
theorem C6_witness :
    (TokenKind.GreaterThan ≠ TokenKind.Equal) ∧
    (TokenKind.GreaterThan ≠ TokenKind.NotEqual) ∧
    binaryOpEval (.BooleanValue true) .GreaterThan (.BooleanValue false) =
      .error (.UnsupportedOperator .GreaterThan) ∧
    TokenKind.Bang.intBinarySupported = false ∧
    binaryOpEval (.IntegerValue 1) .Bang (.IntegerValue 2) =
      .error (.UnsupportedOperator .Bang) ∧
    binaryOpEval (.IntegerValue 1) .Plus (.BooleanValue true) =
      .error (.TypeMismatch
        "Cannot perform operation '+' between '1' and 'true'") :=
  ⟨by decide, by decide, 
   C6_binary_dispatch_errors.2.1 true false .GreaterThan (by decide) (by decide),
   rfl,
   C6_binary_dispatch_errors.2.2.1 1 2 .Bang rfl,
   C6_binary_dispatch_errors.2.2.2 (.IntegerValue 1) (.BooleanValue true) .Plus
     (by simp [Object.isInteger]) (by simp [Object.isBoolean])⟩

/-- A state whose global frame binds `f` to a closure with 256
parameters (and `g` to one with two parameters). -/
def arityTestState : EvalState :=
  ⟨[⟨[("f", .FunctionValue ⟨List.replicate 256 "p", .BlockStatement [], 0⟩),
      ("g", .FunctionValue ⟨["a", "b"], .BlockStatement [], 0⟩)], none⟩],
   0, none⟩

set_option maxRecDepth 4000 in
/-- C7, counterexample.  The arity error carries the counts cast
`as u8`: calling a 256-parameter closure with 0 arguments yields
`FunctionCallWrongArity 0 0` — the expected count 256 is truncated to 0,
so the error does not carry the expected (parameter) count. -/
theorem C7_counterexample :
    evalCallExpression 1 "f" [] arityTestState =
      (.err (.FunctionCallWrongArity 0 0), arityTestState) ∧
    (List.replicate 256 "p").length = 256 ∧
    EvalError.FunctionCallWrongArity 0 0 ≠
      EvalError.FunctionCallWrongArity 256 0 :=
  ⟨rfl, by simp, by decide⟩

/-- C7, amended.  Whenever the callee resolves to a closure and the
argument count differs from the parameter count — in either direction —
the call fails, before evaluating any argument, with an arity error
carrying the parameter count and the argument count each reduced modulo
256 (the source casts both `as u8`), leaving the state unchanged. -/
theorem C7_arity_error :
    ∀ (fuel : Nat) (path : String) (args : List Expression) (s : EvalState)
      (params : List String) (body : Statement) (envIdx : Nat),
      getVar path s = (.ok (.FunctionValue ⟨params, body, envIdx⟩), s) →
      params.length ≠ args.length →
      evalCallExpression (fuel+1) path args s =
        (.err (.FunctionCallWrongArity (params.length % 256)
                 (args.length % 256)), s) := by
  intro fuel path args s params body envIdx hget hlen
  simp only [evalCallExpression]
  rw [hget]
  dsimp only
  rw [if_pos hlen]

/-- C7, witness: calling the two-parameter closure `g` with one argument
fails with `FunctionCallWrongArity 2 1`; calling it with three arguments
fails with `FunctionCallWrongArity 2 3`. -/
theorem C7_witness :
    getVar "g" arityTestState =
      (.ok (.FunctionValue ⟨["a", "b"], .BlockStatement [], 0⟩),
       arityTestState) ∧
    (["a", "b"] : List String).length ≠
      ([.IntegerLiteral 1] : List Expression).length ∧
    evalCallExpression 4 "g" [.IntegerLiteral 1] arityTestState =
      (.err (.FunctionCallWrongArity 2 1), arityTestState) ∧
    evalCallExpression 4 "g"
        [.IntegerLiteral 1, .IntegerLiteral 2, .IntegerLiteral 3]
        arityTestState =
      (.err (.FunctionCallWrongArity 2 3), arityTestState) :=
  ⟨rfl, by decide,
   C7_arity_error 3 "g" [.IntegerLiteral 1] arityTestState ["a", "b"]
     (.BlockStatement []) 0 rfl (by decide),
   C7_arity_error 3 "g"
     [.IntegerLiteral 1, .IntegerLiteral 2, .IntegerLiteral 3]
     arityTestState ["a", "b"] (.BlockStatement []) 0 rfl (by decide)⟩

/-- C8.  If the condition of an if-expression evaluates to a non-boolean
value, the if-expression fails with the type-mismatch error "`if`
condition must be a boolean" (first conjunct); for *every* if-expression
whose condition evaluates to false and which has no alternative branch —
any condition, any consequence — the if-expression evaluates to the unit
value at the post-condition state, the consequence never running (second
conjunct); in particular `if false { 10 }` yields unit with the state
untouched (third conjunct). -/
theorem C8_if_condition :
    (∀ (fuel : Nat) (c : Expression) (t : Statement) (alt : Option Statement)
       (s : EvalState) (v : Object) (s1 : EvalState),
       evalExpression fuel c s = (.ok v, s1) →
       v.isBoolean = false →
       evalExpression (fuel+2) (.IfExpression c t alt) s =
         (.err (.TypeMismatch "`if` condition must be a boolean"), s1)) ∧
    (∀ (fuel : Nat) (c : Expression) (t : Statement) (s : EvalState)
       (s1 : EvalState),
       evalExpression fuel c s = (.ok (.BooleanValue false), s1) →
       evalExpression (fuel+2) (.IfExpression c t none) s =
         (.ok Object.UnitValue, s1)) ∧
    (∀ (fuel : Nat) (s : EvalState),
       evalExpression (fuel+3)
           (.IfExpression (.BooleanLiteral false)
             (.BlockStatement [.ExpressionStatement (.IntegerLiteral 10)])
             none) s =
         (.ok Object.UnitValue, s)) := by
  refine ⟨?_, ?_, ?_⟩
  · intro fuel c t alt s v s1 hc hnb
    show evalIfExpression (fuel+1) c t alt s = _
    simp only [evalIfExpression]
    rw [M_bind_eq, hc]
    cases v <;> first
      | rfl
      | simp [Object.isBoolean] at hnb
  · intro fuel c t s s1 hc
    show evalIfExpression (fuel+1) c t none s = _
    simp only [evalIfExpression]
    rw [M_bind_eq, hc]
    rfl
  · intro fuel s
    rfl

/-- C8, witness: the condition `1` evaluates to the non-boolean integer
value 1 and `if 1 { 10 }` fails with the dedicated type-mismatch
message; the condition `1 > 2` evaluates to false and
`if 1 > 2 { 10 }` with no alternative yields unit via the general
false-condition clause. -/
theorem C8_witness :
    evalExpression 1 (.IntegerLiteral 1) initState =
      (.ok (.IntegerValue 1), initState) ∧
    (Object.IntegerValue 1).isBoolean = false ∧
    evalExpression 3
        (.IfExpression (.IntegerLiteral 1)
          (.BlockStatement [.ExpressionStatement (.IntegerLiteral 10)])
          none) initState =
      (.err (.TypeMismatch "`if` condition must be a boolean"), initState) ∧
    evalExpression 3
        (.BinaryExpression (.IntegerLiteral 1) .GreaterThan (.IntegerLiteral 2))
        initState =
      (.ok (.BooleanValue false), initState) ∧
    evalExpression 5
        (.IfExpression
          (.BinaryExpression (.IntegerLiteral 1) .GreaterThan (.IntegerLiteral 2))
          (.BlockStatement [.ExpressionStatement (.IntegerLiteral 10)])
          none) initState =
      (.ok Object.UnitValue, initState) :=
  ⟨rfl, rfl,
   C8_if_condition.1 1 (.IntegerLiteral 1)
     (.BlockStatement [.ExpressionStatement (.IntegerLiteral 10)]) none
     initState (.IntegerValue 1) initState rfl rfl,
   rfl,
   C8_if_condition.2.1 3
     (.BinaryExpression (.IntegerLiteral 1) .GreaterThan (.IntegerLiteral 2))
     (.BlockStatement [.ExpressionStatement (.IntegerLiteral 10)])
     initState initState rfl⟩

/-- C9.  With the binding powers of `infix_precedence` ((1,2) for `+`
and `-`, (3,4) for `*` and `/`), chains of equal-precedence operators
group to the left and multiplication binds tighter than addition: for
all atomic sub-expressions `a`, `b`, `c` the token sequence
`a - b - c` parses to `(a - b) - c`, and `a + b * c` parses to
`a + (b * c)`. -/
theorem C9_precedence_and_associativity :
    ∀ a b c : Atom,
      runParseExpr [a.tok, .opTok .Minus, b.tok, .opTok .Minus, c.tok] =
        some (.ok (.BinaryExpression
          (.BinaryExpression a.expr .Minus b.expr) .Minus c.expr)) ∧
      runParseExpr [a.tok, .opTok .Plus, b.tok, .opTok .Asterisk, c.tok] =
        some (.ok (.BinaryExpression a.expr .Plus
          (.BinaryExpression b.expr .Asterisk c.expr))) := by
  intro a b c
  constructor <;> (cases a <;> cases b <;> cases c <;> rfl)

/-- The program loop never produces `ReturnOutsideExpression` either. -/
theorem programNeverROE :
    ∀ (fuel : Nat) (prog : List Statement) (s : EvalState),
      (evalProgramStmts fuel prog s).1 ≠ .err .ReturnOutsideExpression := by
  intro fuel prog
  induction prog with
  | nil =>
      intro s hc
      simp [evalProgramStmts] at hc
  | cons st rest ih =>
      exact noroe_bind ((evalNeverROE fuel).1 st)
        (fun obj => noroe_bind (fun s => ih s) (fun objs => noroe_pure _))

/-- `return 5; { 7; }; 9;` -/
def topReturnProg : List Statement :=
  [ .ReturnStatement (.IntegerLiteral 5),
    .BlockStatement [.ExpressionStatement (.IntegerLiteral 7)],
    .ExpressionStatement (.IntegerLiteral 9) ]

/-- C10.  A top-level return statement is not an error: it yields the
`ReturnValue` wrapper as its collected result and leaves the
pending-return flag set (first conjunct); the program `return 5; { 7; };
9;` runs to completion with results `[return 5, (), 9]` — the remaining
top-level statements are still evaluated, and the still-set flag
truncates the next block, whose `7;` never runs (second and third
conjuncts); and no evaluation whatsoever produces the dedicated
`ReturnOutsideExpression` error variant (fourth conjunct, with
`evalNeverROE` behind it). -/
theorem C10_top_level_return :
    (∀ (fuel : Nat) (e : Expression) (s : EvalState) (v : Object)
       (s1 : EvalState),
       evalExpression fuel e s = (.ok v, s1) →
       evalStatement (fuel+1) (.ReturnStatement e) s =
         (.ok (.ReturnValue v), { s1 with returnedValue := some v })) ∧
    runProgram 20 topReturnProg =
      (.ok [.ReturnValue (.IntegerValue 5), .UnitValue, .IntegerValue 9],
       ⟨[⟨[], none⟩, ⟨[], some 0⟩], 0, none⟩) ∧
    evalStatement 20 (.BlockStatement [.ExpressionStatement (.IntegerLiteral 7)])
        ⟨[⟨[], none⟩], 0, some (.IntegerValue 5)⟩ =
      (.ok Object.UnitValue, ⟨[⟨[], none⟩, ⟨[], some 0⟩], 0, none⟩) ∧
    (∀ (fuel : Nat) (prog : List Statement) (s : EvalState),
       (evalProgramStmts fuel prog s).1 ≠ .err .ReturnOutsideExpression) := by
  refine ⟨?_, ?_, rfl, programNeverROE⟩
  · intro fuel e s v s1 h
    show (evalExpression fuel e >>= fun obj =>
      setReturned (some obj) >>= fun _ => pure (Object.ReturnValue obj)) s = _
    rw [M_bind_eq, h]
    rfl
  · rfl

/-- C10, witness: the return-statement characterization applied to
`return 5;` from the initial state. -/
theorem C10_witness :
    evalExpression 1 (.IntegerLiteral 5) initState =
      (.ok (.IntegerValue 5), initState) ∧
    evalStatement 2 (.ReturnStatement (.IntegerLiteral 5)) initState =
      (.ok (.ReturnValue (.IntegerValue 5)),
       ⟨[⟨[], none⟩], 0, some (.IntegerValue 5)⟩) ∧
    (evalProgramStmts 3 [.ReturnStatement (.IntegerLiteral 5)] initState).1 ≠
      .err .ReturnOutsideExpression :=
  ⟨rfl,
   C10_top_level_return.1 1 (.IntegerLiteral 5) initState (.IntegerValue 5)
     initState rfl,
   C10_top_level_return.2.2.2 3 [.ReturnStatement (.IntegerLiteral 5)]
     initState⟩
